import Mathlib

/-!
Verification of the security-advisory engine described by the repository
specification, against the test suite in
src/spec-main/security-warnings-spec.ts.  The engine implementation itself
(classifiers, warning catalog, emitter) is not present under src/ — only its
test file is — so those components are modelled from the spec, as noted on
each definition.  Components modelled: OriginTrustClassifier, CSPAnalyzer,
ResourceOriginClassifier, ConfigurationClassifier, WarningCatalog and the
WarningEmitter state machine.
-/

/-- Substring test over character lists: does the list start with the pattern. -/
def strStartsWith : List Char → List Char → Bool
  | _, [] => true
  | [], _ :: _ => false
  | c :: cs, d :: ds => c == d && strStartsWith cs ds

/-- Substring test over character lists: does the pattern occur anywhere. -/
def strHasSub (pat : List Char) : List Char → Bool
  | [] => strStartsWith [] pat
  | c :: cs => strStartsWith (c :: cs) pat || strHasSub pat cs

/-- String containment, as the tests use it (indexOf(pat) > -1). -/
def containsSubstr (s pat : String) : Bool :=
  strHasSub pat.data s.data

/-- From src/spec-main/security-warnings-spec.ts lines 16-18: the predicate the
test suite uses to recognise a security advisory on the diagnostic channel —
the message contains the marker substring. -/
def messageContainsSecurityWarning (message : String) : Bool :=
  containsSubstr message ("Electron Security Warning")

/-- Modelled from the spec (section 3, CapabilityConfiguration; the engine
source is missing from src/): the immutable per-session capability snapshot.
Field names follow the spec vocabulary; sandbox state is recorded per the
data model but no rule consults it. -/
structure CapabilityConfiguration where
  privilegedAPI : Bool
  contentIsolationDisabled : Bool
  insecureContentAllowed : Bool
  experimentalFeatures : Bool
  customFeatureString : String
  popupsAllowed : Bool
  transportSecurityDisabled : Bool
  sandbox : Bool
  deriving Repr, DecidableEq

/-- Modelled from the spec (section 4.6 catalog and section 4.4 rules; the
engine source is missing from src/): the advisory kinds. -/
inductive AdvisoryKind where
  | PrivilegedAPIWithoutIsolation
  | DisabledContentIsolation
  | InsecureContentAllowed
  | ExperimentalFeaturesEnabled
  | CustomEngineFeatureEnabled
  | PopupsFromHostedFramesAllowed
  | InsecurePolicy
  | InsecureResources
  | DisabledTransportSecurity
  deriving Repr, DecidableEq

/-- A parsed URL: scheme, host, port and path.  A malformed URL is represented
as (none : Option Url) by callers, per the fail-closed rule of spec 4.1. -/
structure Url where
  scheme : String
  host : String
  port : Nat
  path : String
  deriving Repr, DecidableEq

/-- Modelled from the spec (section 4.1, OriginTrustClassifier; the engine
source is missing from src/): a host is loopback iff it is the canonical
loopback name or a loopback IP literal. -/
def isLoopbackHost (h : String) : Bool :=
  h == ("localhost") || h == ("127.0.0.1") || h == ("::1")

/-- Modelled from the spec (section 4.1): an origin is trusted iff its host is
loopback, regardless of port; a malformed URL is untrusted (fail closed). -/
def isTrusted : Option Url → Bool
  | none => false
  | some u => isLoopbackHost u.host

/-- Modelled from the spec (section 4.3 and glossary): plaintext transport
schemes, i.e. unencrypted resource transports. -/
def isPlaintextScheme (s : String) : Bool :=
  s == ("http") || s == ("ftp")

/-- Modelled from the spec (section 4.2): outcome of CSP analysis. -/
inductive CSPClass where
  | Absent
  | WeakOrMissingScriptRestriction
  | Adequate
  deriving Repr, DecidableEq

/-- Split a character list on a separator character. -/
def splitOnChar (sep : Char) : List Char → List (List Char)
  | [] => [[]]
  | c :: cs =>
      let r := splitOnChar sep cs
      if c == sep then [] :: r
      else
        match r with
        | [] => [[c]]
        | t :: ts => (c :: t) :: ts

/-- Strip leading and trailing spaces from a character list. -/
def trimChars (cs : List Char) : List Char :=
  ((cs.dropWhile (fun c => c == (' '))).reverse.dropWhile (fun c => c == (' '))).reverse

/-- Directives of one policy header value, split on the directive separator. -/
def policyDirectives (h : String) : List String :=
  (splitOnChar (';') h.data).map (fun d => String.mk (trimChars d))

/-- Modelled from the spec (section 4.2): a directive restricts script sources
iff it is a script-source restriction directive (its name is script-src, as in
the adequate header of src/spec-main/security-warnings-spec.ts line 56). -/
def directiveRestrictsScript (d : String) : Bool :=
  (d.data.takeWhile (fun c => !(c == (' ')))) == ("script-src").data

/-- Modelled from the spec (section 4.2, CSPAnalyzer; the engine source is
missing from src/): empty header sequence is Absent; Adequate iff some present
directive restricts script sources; any other present policy (including a
trusted-types-only one) is WeakOrMissingScriptRestriction. -/
def CSPAnalyzer.classify (headers : List String) : CSPClass :=
  if headers.isEmpty then CSPClass.Absent
  else if headers.any (fun h => (policyDirectives h).any directiveRestrictsScript)
    then CSPClass.Adequate
  else CSPClass.WeakOrMissingScriptRestriction

/-- Modelled from the spec (section 4.3): outcome of resource classification. -/
inductive ResourceClass where
  | SameOrigin
  | SecureCrossOrigin
  | Insecure
  deriving Repr, DecidableEq

/-- Modelled from the spec (section 4.3, ResourceOriginClassifier; the engine
source is missing from src/): Insecure iff the resource scheme is plaintext,
the document origin is untrusted, and the document itself was not already
loaded over plaintext transport (only the first escalation from a secure
document to an insecure resource is flagged). -/
def ResourceOriginClassifier.classify (docUrl : Option Url) (res : Url) : ResourceClass :=
  let docAlreadyInsecure :=
    match docUrl with
    | some d => isPlaintextScheme d.scheme
    | none => true
  if isPlaintextScheme res.scheme && !(isTrusted docUrl) && !docAlreadyInsecure then
    ResourceClass.Insecure
  else
    match docUrl with
    | some d =>
        if d.scheme == res.scheme && d.host == res.host && d.port == res.port then
          ResourceClass.SameOrigin
        else ResourceClass.SecureCrossOrigin
    | none => ResourceClass.SecureCrossOrigin

/-- Modelled from the spec (section 4.4, ConfigurationClassifier; the engine
source is missing from src/): pure, deterministic map from a configuration to
the configuration-derived advisory kinds; DisabledContentIsolation is emitted
only when not subsumed by the stronger combined privileged-API rule. -/
def ConfigurationClassifier.classify (c : CapabilityConfiguration) : List AdvisoryKind :=
  (if c.privilegedAPI && c.contentIsolationDisabled then
    [AdvisoryKind.PrivilegedAPIWithoutIsolation] else [])
  ++ (if c.contentIsolationDisabled && !(c.privilegedAPI && c.contentIsolationDisabled) then
    [AdvisoryKind.DisabledContentIsolation] else [])
  ++ (if c.insecureContentAllowed then [AdvisoryKind.InsecureContentAllowed] else [])
  ++ (if c.experimentalFeatures then [AdvisoryKind.ExperimentalFeaturesEnabled] else [])
  ++ (if !c.customFeatureString.data.isEmpty then [AdvisoryKind.CustomEngineFeatureEnabled] else [])
  ++ (if c.popupsAllowed then [AdvisoryKind.PopupsFromHostedFramesAllowed] else [])
  ++ (if c.transportSecurityDisabled then [AdvisoryKind.DisabledTransportSecurity] else [])

/-- Modelled from the spec (section 4.5; the engine source is missing from
src/): a configuration-derived advisory is trust-gated iff its root condition
is remote content combined with a privileged capability; purely local
configuration hazards are never suppressed by trust. -/
def trustGated : AdvisoryKind → Bool
  | AdvisoryKind.PrivilegedAPIWithoutIsolation => true
  | _ => false

/-- Modelled from the spec (section 4.6, WarningCatalog; the engine source is
missing from src/): the stable message for each advisory kind, each carrying
the common marker and the literal identifier of its hazard, matching the
substrings the tests in src/spec-main/security-warnings-spec.ts expect. -/
def renderMessage : AdvisoryKind → String
  | AdvisoryKind.PrivilegedAPIWithoutIsolation =>
      "Electron Security Warning: This renderer process enables Node.js Integration with Remote Content."
  | AdvisoryKind.DisabledContentIsolation =>
      "Electron Security Warning: This renderer process has Disabled Content Isolation."
  | AdvisoryKind.InsecureContentAllowed =>
      "Electron Security Warning: This renderer process has allowRunningInsecureContent enabled."
  | AdvisoryKind.ExperimentalFeaturesEnabled =>
      "Electron Security Warning: This renderer process has experimentalFeatures enabled."
  | AdvisoryKind.CustomEngineFeatureEnabled =>
      "Electron Security Warning: This renderer process has additional enableBlinkFeatures enabled."
  | AdvisoryKind.PopupsFromHostedFramesAllowed =>
      "Electron Security Warning: A frame with allowpopups was detected."
  | AdvisoryKind.InsecurePolicy =>
      "Electron Security Warning: This renderer process has an Insecure Content-Security-Policy."
  | AdvisoryKind.InsecureResources =>
      "Electron Security Warning: This renderer process loads Insecure Resources."
  | AdvisoryKind.DisabledTransportSecurity =>
      "Electron Security Warning: This renderer process has Disabled webSecurity."

/-- An advisory: a kind paired with its rendered message (spec section 3). -/
structure Advisory where
  kind : AdvisoryKind
  message : String
  deriving Repr, DecidableEq

/-- Modelled from the spec (section 4.5): emitter phases.  The transient
Created phase collapses into session construction. -/
inductive Phase where
  | FirstNavigationPending
  | Active
  | Closed
  deriving Repr, DecidableEq

/-- Modelled from the spec (section 3, Session; the engine source is missing
from src/): configuration snapshot, monotone emitted-set, current top-level
document origin and emitter phase. -/
structure Session where
  config : CapabilityConfiguration
  emitted : List AdvisoryKind
  currentOrigin : Option Url
  phase : Phase
  deriving Repr, DecidableEq

/-- Session construction (spec section 4.5, Created to FirstNavigationPending). -/
def Session.create (c : CapabilityConfiguration) : Session :=
  { config := c, emitted := [], currentOrigin := none, phase := Phase.FirstNavigationPending }

/-- Modelled from the spec (sections 3 and 5): the events the hosting runtime
pushes to the engine for one session. -/
inductive Event where
  | navigate (u : Option Url) (cspHeaders : List String)
  | resourceLoad (res : Url)
  | destroy
  deriving Repr, DecidableEq

/-- Modelled from the spec (section 4.5, WarningEmitter dedup): emit each kind
of the list not already in the emitted-set, recording it; a kind already
emitted for the session is never emitted again. -/
def Session.emitAll : Session → List AdvisoryKind → Session × List Advisory
  | s, [] => (s, [])
  | s, k :: ks =>
      if k ∈ s.emitted then s.emitAll ks
      else
        let s1 : Session := { s with emitted := k :: s.emitted }
        let r := s1.emitAll ks
        (r.1, { kind := k, message := renderMessage k } :: r.2)

/-- Modelled from the spec (section 4.5): configuration advisories surviving
the trust gate evaluated against the first committed origin. -/
def gatedConfigAdvisories (c : CapabilityConfiguration) (trusted : Bool) : List AdvisoryKind :=
  (ConfigurationClassifier.classify c).filter (fun k => !(trusted && trustGated k))

/-- Modelled from the spec (sections 4.2 and 4.5): the insecure-policy
advisory fires for any non-Adequate policy, gated hard by origin trust; both
non-Adequate outcomes map to the same advisory kind. -/
def cspAdvisory (trusted : Bool) (headers : List String) : List AdvisoryKind :=
  match CSPAnalyzer.classify headers with
  | CSPClass.Adequate => []
  | _ => if trusted then [] else [AdvisoryKind.InsecurePolicy]

/-- Modelled from the spec (section 4.5, WarningEmitter state machine; the
engine source is missing from src/).  First navigation evaluates trust on the
committed URL, emits the surviving configuration advisories and the policy
advisory, and activates the session; later navigations re-run the CSP
analysis only; resource loads run the resource classifier against the current
document origin; destruction closes the session and discards its state; a
closed session emits nothing. -/
def Session.step (s : Session) (e : Event) : Session × List Advisory :=
  match s.phase, e with
  | Phase.Closed, _ => (s, [])
  | _, Event.destroy =>
      ({ s with phase := Phase.Closed, emitted := [] }, [])
  | Phase.FirstNavigationPending, Event.navigate u headers =>
      let trusted := isTrusted u
      let ks := gatedConfigAdvisories s.config trusted ++ cspAdvisory trusted headers
      Session.emitAll { s with phase := Phase.Active, currentOrigin := u } ks
  | Phase.Active, Event.navigate u headers =>
      let trusted := isTrusted u
      Session.emitAll { s with currentOrigin := u } (cspAdvisory trusted headers)
  | Phase.FirstNavigationPending, Event.resourceLoad _ => (s, [])
  | Phase.Active, Event.resourceLoad r =>
      match ResourceOriginClassifier.classify s.currentOrigin r with
      | ResourceClass.Insecure => s.emitAll [AdvisoryKind.InsecureResources]
      | _ => (s, [])

/-- Run a session through a list of events, collecting emitted advisories in
order. -/
def Session.run (s : Session) : List Event → Session × List Advisory
  | [] => (s, [])
  | e :: es =>
      let r1 := s.step e
      let r2 := r1.1.run es
      (r2.1, r1.2 ++ r2.2)

/-- Kinds of the advisories produced by a step or run outcome. -/
def outKinds (r : Session × List Advisory) : List AdvisoryKind :=
  r.2.map Advisory.kind

/-- Configuration of the nodeIntegration test of
src/spec-main/security-warnings-spec.ts lines 83-95: privileged API enabled
and content isolation disabled, all other flags off. -/
def cfgNI : CapabilityConfiguration :=
  { privilegedAPI := true, contentIsolationDisabled := true, insecureContentAllowed := false,
    experimentalFeatures := false, customFeatureString := "", popupsAllowed := false,
    transportSecurityDisabled := false, sandbox := false }

/-- Same privileged-API configuration but with content isolation active. -/
def cfgNIiso : CapabilityConfiguration :=
  { cfgNI with contentIsolationDisabled := false }

/-- Configuration with every purely local hazard flag set. -/
def cfgLocalHazards : CapabilityConfiguration :=
  { privilegedAPI := false, contentIsolationDisabled := false, insecureContentAllowed := true,
    experimentalFeatures := true, customFeatureString := "my-cool-feature", popupsAllowed := true,
    transportSecurityDisabled := true, sandbox := false }

/-- A non-loopback plaintext document URL, as in the end-to-end scenario of
the spec (section 8). -/
def urlRemote : Url :=
  { scheme := "http", host := "remote.example", port := 80, path := "/page" }

/-- A loopback document URL, as served by the fixture server of
src/spec-main/security-warnings-spec.ts lines 64-65. -/
def urlLocal : Url :=
  { scheme := "http", host := "127.0.0.1", port := 8881, path := "/base-page-security.html" }

/-- A non-loopback document URL over encrypted transport. -/
def urlDocTLS : Url :=
  { scheme := "https", host := "remote.example", port := 443, path := "/insecure-resources.html" }

/-- A plaintext-transport image sub-resource. -/
def resImg : Url :=
  { scheme := "http", host := "img.example", port := 80, path := "/img.png" }

/-- An active session whose committed document is the encrypted remote URL. -/
def sessionDocTLS : Session :=
  { config := cfgNI, emitted := [], currentOrigin := some urlDocTLS, phase := Phase.Active }

/-- The adequate policy header of src/spec-main/security-warnings-spec.ts
line 56. -/
def headerAdequate : String :=
  "script-src \x27self\x27 \x27unsafe-inline\x27"

/-- The trusted-types-only policy header of
src/spec-main/security-warnings-spec.ts line 57. -/
def headerTrustedTypes : String :=
  "require-trusted-types-for \x27script\x27; trusted-types *"

/-- The adequate policy header of the end-to-end scenario of the spec
(section 8). -/
def headerScriptSrcSelf : String :=
  "script-src \x27self\x27"

/-- Erase the sandbox flag of a configuration (the one field no advisory rule
consults). -/
def scrubConfig (c : CapabilityConfiguration) : CapabilityConfiguration :=
  { c with sandbox := false }

/-- Erase the sandbox flag of a session's configuration snapshot. -/
def scrubSession (s : Session) : Session :=
  { s with config := scrubConfig s.config }

lemma emitAll_config (s : Session) (ks : List AdvisoryKind) :
    (s.emitAll ks).1.config = s.config := by
  induction ks generalizing s with
  | nil => rfl
  | cons k ks ih =>
      simp only [Session.emitAll]
      split
      · exact ih s
      · exact ih _

lemma emitAll_sub (s : Session) (ks : List AdvisoryKind) :
    s.emitted ⊆ (s.emitAll ks).1.emitted := by
  induction ks generalizing s with
  | nil => exact fun k hk => hk
  | cons k ks ih =>
      simp only [Session.emitAll]
      split
      · exact ih s
      · intro x hx
        exact ih { s with emitted := k :: s.emitted } (List.mem_cons_of_mem k hx)

lemma emitAll_out (s : Session) (ks : List AdvisoryKind) (a : Advisory)
    (h : a ∈ (s.emitAll ks).2) :
    a.kind ∈ ks ∧ a.kind ∉ s.emitted ∧ a.message = renderMessage a.kind ∧
      a.kind ∈ (s.emitAll ks).1.emitted := by
  induction ks generalizing s with
  | nil => simp [Session.emitAll] at h
  | cons k ks ih =>
      by_cases hk : k ∈ s.emitted
      · simp only [Session.emitAll, if_pos hk] at h ⊢
        rcases ih s h with ⟨h1, h2, h3, h4⟩
        exact ⟨List.mem_cons_of_mem k h1, h2, h3, h4⟩
      · simp only [Session.emitAll, if_neg hk] at h ⊢
        rcases List.mem_cons.mp h with rfl | htail
        · refine ⟨List.mem_cons_self k ks, hk, rfl, ?_⟩
          exact emitAll_sub { s with emitted := k :: s.emitted } ks (List.mem_cons_self k _)
        · rcases ih { s with emitted := k :: s.emitted } htail with ⟨h1, h2, h3, h4⟩
          refine ⟨List.mem_cons_of_mem k h1, ?_, h3, h4⟩
          intro hm
          exact h2 (List.mem_cons_of_mem k hm)

lemma emitAll_nodup (s : Session) (ks : List AdvisoryKind) :
    ((s.emitAll ks).2.map Advisory.kind).Nodup := by
  induction ks generalizing s with
  | nil => simp [Session.emitAll]
  | cons k ks ih =>
      by_cases hk : k ∈ s.emitted
      · simp only [Session.emitAll, if_pos hk]
        exact ih s
      · simp only [Session.emitAll, if_neg hk, List.map_cons, List.nodup_cons]
        refine ⟨?_, ih _⟩
        intro hmem
        rcases List.mem_map.mp hmem with ⟨a, ha, hak⟩
        rcases emitAll_out { s with emitted := k :: s.emitted } ks a ha with ⟨_, h2, _, _⟩
        exact h2 (hak ▸ List.mem_cons_self k s.emitted)

lemma emitAll_emits (s : Session) (ks : List AdvisoryKind) (k : AdvisoryKind)
    (hk : k ∈ ks) (hs : k ∉ s.emitted) :
    k ∈ (s.emitAll ks).2.map Advisory.kind := by
  induction ks generalizing s with
  | nil => cases hk
  | cons k0 ks ih =>
      by_cases h0 : k0 ∈ s.emitted
      · simp only [Session.emitAll, if_pos h0]
        rcases List.mem_cons.mp hk with rfl | htail
        · exact absurd h0 hs
        · exact ih s htail hs
      · simp only [Session.emitAll, if_neg h0, List.map_cons]
        rcases List.mem_cons.mp hk with rfl | htail
        · exact List.mem_cons_self k _
        · by_cases hkk : k = k0
          · subst hkk
            exact List.mem_cons_self k _
          · refine List.mem_cons_of_mem _ (ih _ htail ?_)
            intro hmem
            rcases List.mem_cons.mp hmem with h | h
            · exact hkk h
            · exact hs h

lemma step_closed (s : Session) (e : Event) (h : s.phase = Phase.Closed) :
    s.step e = (s, []) := by
  cases e <;> simp [Session.step, h]

lemma run_closed (s : Session) (tr : List Event) (h : s.phase = Phase.Closed) :
    s.run tr = (s, []) := by
  induction tr with
  | nil => rfl
  | cons e es ih => simp [Session.run, step_closed s e h, ih]

lemma step_out (s : Session) (e : Event) (a : Advisory) (h : a ∈ (s.step e).2) :
    a.kind ∉ s.emitted ∧ a.message = renderMessage a.kind ∧
      a.kind ∈ (s.step e).1.emitted := by
  obtain ⟨cfg, em, org, ph⟩ := s
  cases ph with
  | Closed => cases e <;> simp [Session.step] at h
  | FirstNavigationPending =>
      cases e with
      | destroy => simp [Session.step] at h
      | resourceLoad r => simp [Session.step] at h
      | navigate u hdrs =>
          have hout := emitAll_out _ _ a h
          exact ⟨hout.2.1, hout.2.2.1, hout.2.2.2⟩
  | Active =>
      cases e with
      | destroy => simp [Session.step] at h
      | navigate u hdrs =>
          have hout := emitAll_out _ _ a h
          exact ⟨hout.2.1, hout.2.2.1, hout.2.2.2⟩
      | resourceLoad r =>
          simp only [Session.step] at h ⊢
          generalize hcl : ResourceOriginClassifier.classify org r = rc at h ⊢
          cases rc with
          | Insecure =>
              have hout := emitAll_out _ _ a h
              exact ⟨hout.2.1, hout.2.2.1, hout.2.2.2⟩
          | SameOrigin => simp at h
          | SecureCrossOrigin => simp at h

lemma step_keep (s : Session) (e : Event) (k : AdvisoryKind) (hk : k ∈ s.emitted) :
    k ∈ (s.step e).1.emitted ∨ (s.step e).1.phase = Phase.Closed := by
  obtain ⟨cfg, em, org, ph⟩ := s
  cases ph with
  | Closed => cases e <;> exact Or.inl hk
  | FirstNavigationPending =>
      cases e with
      | destroy => exact Or.inr rfl
      | resourceLoad r => exact Or.inl hk
      | navigate u hdrs => exact Or.inl (emitAll_sub _ _ hk)
  | Active =>
      cases e with
      | destroy => exact Or.inr rfl
      | navigate u hdrs => exact Or.inl (emitAll_sub _ _ hk)
      | resourceLoad r =>
          simp only [Session.step]
          cases hcl : ResourceOriginClassifier.classify org r with
          | Insecure => exact Or.inl (emitAll_sub _ _ hk)
          | SameOrigin => exact Or.inl hk
          | SecureCrossOrigin => exact Or.inl hk

lemma step_nodup (s : Session) (e : Event) :
    ((s.step e).2.map Advisory.kind).Nodup := by
  obtain ⟨cfg, em, org, ph⟩ := s
  cases ph with
  | Closed => cases e <;> simp [Session.step]
  | FirstNavigationPending =>
      cases e with
      | destroy => simp [Session.step]
      | resourceLoad r => simp [Session.step]
      | navigate u hdrs => exact emitAll_nodup _ _
  | Active =>
      cases e with
      | destroy => simp [Session.step]
      | navigate u hdrs => exact emitAll_nodup _ _
      | resourceLoad r =>
          simp only [Session.step]
          cases hcl : ResourceOriginClassifier.classify org r with
          | Insecure => exact emitAll_nodup _ _
          | SameOrigin => simp
          | SecureCrossOrigin => simp

lemma run_fresh (tr : List Event) (s : Session) :
    (((s.run tr).2.map Advisory.kind).Nodup) ∧
      (∀ k, k ∈ (s.run tr).2.map Advisory.kind → k ∉ s.emitted) := by
  induction tr generalizing s with
  | nil => simp [Session.run]
  | cons e es ih =>
      have hrun : (s.run (e :: es)).2 = (s.step e).2 ++ ((s.step e).1.run es).2 := rfl
      constructor
      · rw [hrun, List.map_append, List.nodup_append]
        refine ⟨step_nodup s e, (ih (s.step e).1).1, ?_⟩
        intro k hk1 hk2
        rcases List.mem_map.mp hk1 with ⟨a, ha, rfl⟩
        have h1 := (step_out s e a ha).2.2
        exact (ih (s.step e).1).2 _ hk2 h1
      · intro k hk
        rw [hrun, List.map_append] at hk
        rcases List.mem_append.mp hk with h1 | h2
        · rcases List.mem_map.mp h1 with ⟨a, ha, rfl⟩
          exact (step_out s e a ha).1
        · intro hks
          rcases step_keep s e k hks with hkeep | hclosed
          · exact (ih (s.step e).1).2 _ h2 hkeep
          · rw [run_closed _ es hclosed] at h2
            simp at h2

lemma classify_no_insecurePolicy (c : CapabilityConfiguration) :
    AdvisoryKind.InsecurePolicy ∉ ConfigurationClassifier.classify c := by
  unfold ConfigurationClassifier.classify
  split_ifs <;> simp

lemma classify_pawi_mem (c : CapabilityConfiguration)
    (h1 : c.privilegedAPI = true) (h2 : c.contentIsolationDisabled = true) :
    AdvisoryKind.PrivilegedAPIWithoutIsolation ∈ ConfigurationClassifier.classify c := by
  unfold ConfigurationClassifier.classify
  simp only [h1, h2]
  simp

lemma classify_no_dci (c : CapabilityConfiguration)
    (h1 : c.privilegedAPI = true) (h2 : c.contentIsolationDisabled = true) :
    AdvisoryKind.DisabledContentIsolation ∉ ConfigurationClassifier.classify c := by
  unfold ConfigurationClassifier.classify
  simp only [h1, h2]
  split_ifs <;> simp_all

lemma classify_exp_mem (c : CapabilityConfiguration)
    (h : c.experimentalFeatures = true) :
    AdvisoryKind.ExperimentalFeaturesEnabled ∈ ConfigurationClassifier.classify c := by
  unfold ConfigurationClassifier.classify
  simp [h]

lemma classify_custom_mem (c : CapabilityConfiguration)
    (h : c.customFeatureString.data.isEmpty = false) :
    AdvisoryKind.CustomEngineFeatureEnabled ∈ ConfigurationClassifier.classify c := by
  unfold ConfigurationClassifier.classify
  simp [h]

lemma classify_popups_mem (c : CapabilityConfiguration)
    (h : c.popupsAllowed = true) :
    AdvisoryKind.PopupsFromHostedFramesAllowed ∈ ConfigurationClassifier.classify c := by
  unfold ConfigurationClassifier.classify
  simp [h]

lemma gated_mem_of (c : CapabilityConfiguration) (t : Bool) (k : AdvisoryKind)
    (hk : k ∈ ConfigurationClassifier.classify c) (hg : trustGated k = false) :
    k ∈ gatedConfigAdvisories c t := by
  unfold gatedConfigAdvisories
  exact List.mem_filter.mpr ⟨hk, by simp [hg]⟩

lemma cspAdvisory_trusted (hs : List String) : cspAdvisory true hs = [] := by
  unfold cspAdvisory
  split <;> simp

lemma cspAdvisory_sub (t : Bool) (hs : List String) (k : AdvisoryKind)
    (h : k ∈ cspAdvisory t hs) : k = AdvisoryKind.InsecurePolicy := by
  unfold cspAdvisory at h
  split at h
  · simp at h
  · split at h
    · simp at h
    · simpa using h

lemma cspAdvisory_nonadequate (hs : List String)
    (h : CSPAnalyzer.classify hs ≠ CSPClass.Adequate) :
    cspAdvisory false hs = [AdvisoryKind.InsecurePolicy] := by
  unfold cspAdvisory
  split
  · rename_i heq
    exact absurd heq h
  · simp

lemma classify_adequate_iff (hs : List String) :
    CSPAnalyzer.classify hs = CSPClass.Adequate ↔
      ∃ h ∈ hs, ∃ d ∈ policyDirectives h, directiveRestrictsScript d = true := by
  unfold CSPAnalyzer.classify
  split
  · rename_i hempty
    have he : hs = [] := by simpa using hempty
    subst he
    simp
  · split
    · rename_i hany
      rcases List.any_eq_true.mp hany with ⟨x, hx, hpx⟩
      rcases List.any_eq_true.mp hpx with ⟨d, hd, hdp⟩
      exact ⟨fun _ => ⟨x, hx, d, hd, hdp⟩, fun _ => rfl⟩
    · rename_i hany
      constructor
      · intro hcl
        cases hcl
      · intro hex
        exfalso
        apply hany
        rcases hex with ⟨x, hx, d, hd, hdp⟩
        exact List.any_eq_true.mpr ⟨x, hx, List.any_eq_true.mpr ⟨d, hd, hdp⟩⟩

lemma classify_absent_iff (hs : List String) :
    CSPAnalyzer.classify hs = CSPClass.Absent ↔ hs = [] := by
  unfold CSPAnalyzer.classify
  rcases hs with _ | ⟨h0, t⟩
  · simp
  · simp only [List.isEmpty_cons, Bool.false_eq_true, if_false]
    constructor
    · intro h
      split at h <;> cases h
    · intro h
      cases h

lemma classify_weak_of (hs : List String) (hne : hs ≠ [])
    (hno : ∀ h ∈ hs, ∀ d ∈ policyDirectives h, directiveRestrictsScript d = false) :
    CSPAnalyzer.classify hs = CSPClass.WeakOrMissingScriptRestriction := by
  cases hcl : CSPAnalyzer.classify hs with
  | Absent => exact absurd ((classify_absent_iff hs).mp hcl) hne
  | Adequate =>
      rcases (classify_adequate_iff hs).mp hcl with ⟨x, hx, d, hd, hdp⟩
      rw [hno x hx d hd] at hdp
      cases hdp
  | WeakOrMissingScriptRestriction => rfl

lemma create_step_nav (c : CapabilityConfiguration) (u : Option Url) (hdrs : List String) :
    (Session.create c).step (Event.navigate u hdrs) =
      Session.emitAll
        { config := c, emitted := [], currentOrigin := u, phase := Phase.Active }
        (gatedConfigAdvisories c (isTrusted u) ++ cspAdvisory (isTrusted u) hdrs) := rfl

lemma run_single (s : Session) (e : Event) : (s.run [e]).2 = (s.step e).2 := by
  simp [Session.run]

lemma emitAll_scrub (ks : List AdvisoryKind) : ∀ s : Session,
    (scrubSession s).emitAll ks = (scrubSession (s.emitAll ks).1, (s.emitAll ks).2) := by
  induction ks with
  | nil => intro s; rfl
  | cons k ks ih =>
      intro s
      by_cases hk : k ∈ s.emitted
      · have hk2 : k ∈ (scrubSession s).emitted := hk
        simp only [Session.emitAll, if_pos hk, if_pos hk2]
        exact ih s
      · have hk2 : k ∉ (scrubSession s).emitted := hk
        simp only [Session.emitAll, if_neg hk, if_neg hk2]
        have heq : ({ scrubSession s with emitted := k :: (scrubSession s).emitted } : Session)
            = scrubSession { s with emitted := k :: s.emitted } := rfl
        rw [heq, ih { s with emitted := k :: s.emitted }]

lemma step_scrub (s : Session) (e : Event) :
    (scrubSession s).step e = (scrubSession (s.step e).1, (s.step e).2) := by
  obtain ⟨cfg, em, org, ph⟩ := s
  cases ph with
  | Closed => cases e <;> rfl
  | FirstNavigationPending =>
      cases e with
      | destroy => rfl
      | resourceLoad r => rfl
      | navigate u hdrs =>
          exact emitAll_scrub
            (gatedConfigAdvisories cfg (isTrusted u) ++ cspAdvisory (isTrusted u) hdrs)
            { config := cfg, emitted := em, currentOrigin := u, phase := Phase.Active }
  | Active =>
      cases e with
      | destroy => rfl
      | navigate u hdrs =>
          exact emitAll_scrub (cspAdvisory (isTrusted u) hdrs)
            { config := cfg, emitted := em, currentOrigin := u, phase := Phase.Active }
      | resourceLoad r =>
          simp only [Session.step, scrubSession, scrubConfig]
          generalize ResourceOriginClassifier.classify org r = rc
          cases rc with
          | Insecure =>
              exact emitAll_scrub [AdvisoryKind.InsecureResources]
                { config := cfg, emitted := em, currentOrigin := org, phase := Phase.Active }
          | SameOrigin => rfl
          | SecureCrossOrigin => rfl

lemma run_scrub (tr : List Event) : ∀ s : Session,
    (scrubSession s).run tr = (scrubSession (s.run tr).1, (s.run tr).2) := by
  induction tr with
  | nil => intro s; rfl
  | cons e es ih =>
      intro s
      simp only [Session.run]
      rw [step_scrub s e, ih (s.step e).1]

lemma run_scrub_out (tr : List Event) (s : Session) :
    ((scrubSession s).run tr).2 = (s.run tr).2 := by
  rw [run_scrub tr s]

/-- Claim C1: for every session, each advisory kind is emitted at most once for
the session lifetime: over any event trace from a fresh session the emitted
kinds are duplicate-free; no step ever emits a kind already in the session's
emitted-set, however often events recur; and a navigation event never shrinks
the emitted-set, so re-navigation does not reset deduplication. -/
theorem advisory_kind_emitted_at_most_once :
    (∀ (c : CapabilityConfiguration) (tr : List Event),
        (((Session.create c).run tr).2.map Advisory.kind).Nodup) ∧
    (∀ (s : Session) (e : Event) (a : Advisory),
        a ∈ (s.step e).2 → a.kind ∉ s.emitted) ∧
    (∀ (s : Session) (u : Option Url) (hdrs : List String),
        s.emitted ⊆ (s.step (Event.navigate u hdrs)).1.emitted) := by
  refine ⟨?_, ?_, ?_⟩
  · intro c tr
    exact (run_fresh tr (Session.create c)).1
  · intro s e a h
    exact (step_out s e a h).1
  · intro s u hdrs
    obtain ⟨cfg, em, org, ph⟩ := s
    cases ph with
    | Closed => exact fun k hk => hk
    | FirstNavigationPending =>
        exact emitAll_sub
          { config := cfg, emitted := em, currentOrigin := u, phase := Phase.Active }
          (gatedConfigAdvisories cfg (isTrusted u) ++ cspAdvisory (isTrusted u) hdrs)
    | Active =>
        exact emitAll_sub
          { config := cfg, emitted := em, currentOrigin := u, phase := Phase.Active }
          (cspAdvisory (isTrusted u) hdrs)

/-- Witness for C1: at a concrete fresh session and navigation the emitted
privileged-API advisory was indeed not in the emitted-set before the step. -/
theorem advisory_kind_emitted_at_most_once_witness :
    ({ kind := AdvisoryKind.PrivilegedAPIWithoutIsolation,
       message := renderMessage AdvisoryKind.PrivilegedAPIWithoutIsolation } : Advisory)
        ∈ ((Session.create cfgNI).step (Event.navigate (some urlRemote) [])).2 ∧
    AdvisoryKind.PrivilegedAPIWithoutIsolation ∉ (Session.create cfgNI).emitted :=
  ⟨by decide,
    advisory_kind_emitted_at_most_once.2.1 (Session.create cfgNI)
      (Event.navigate (some urlRemote) [])
      { kind := AdvisoryKind.PrivilegedAPIWithoutIsolation,
        message := renderMessage AdvisoryKind.PrivilegedAPIWithoutIsolation }
      (by decide)⟩

/-- Claim C6: the insecure-policy advisory is hard-gated by origin trust: a
navigation whose committed origin is trusted never emits the InsecurePolicy
kind, whatever the policy headers carry. -/
theorem csp_advisory_hard_trust_gate :
    ∀ (s : Session) (u : Option Url) (hdrs : List String),
      isTrusted u = true →
      AdvisoryKind.InsecurePolicy ∉
        (s.step (Event.navigate u hdrs)).2.map Advisory.kind := by
  intro s u hdrs ht hmem
  rcases List.mem_map.mp hmem with ⟨a, ha, hak⟩
  obtain ⟨cfg, em, org, ph⟩ := s
  cases ph with
  | Closed => simp [Session.step] at ha
  | FirstNavigationPending =>
      rcases emitAll_out _ _ a ha with ⟨hks, _, _, _⟩
      rcases List.mem_append.mp hks with hcfg | hcsp
      · have hmemc : a.kind ∈ ConfigurationClassifier.classify cfg :=
          (List.mem_filter.mp hcfg).1
        exact classify_no_insecurePolicy cfg (hak ▸ hmemc)
      · rw [ht, cspAdvisory_trusted] at hcsp
        cases hcsp
  | Active =>
      rcases emitAll_out _ _ a ha with ⟨hks, _, _, _⟩
      rw [ht, cspAdvisory_trusted] at hks
      cases hks

/-- Witness for C6: loading from the loopback fixture server address emits no
insecure-policy advisory even with no policy header present. -/
theorem csp_advisory_hard_trust_gate_witness :
    isTrusted (some urlLocal) = true ∧
    AdvisoryKind.InsecurePolicy ∉
      ((Session.create cfgNI).step (Event.navigate (some urlLocal) [])).2.map Advisory.kind :=
  ⟨by decide,
    csp_advisory_hard_trust_gate (Session.create cfgNI) (some urlLocal) [] (by decide)⟩

/-- Claim C7: the configuration classifier never double-fires for one root
cause: whenever the combined privileged-API-without-isolation rule applies the
weaker DisabledContentIsolation kind is subsumed, and the end-to-end scenario
(privileged API, isolation disabled, remote page with an adequate policy)
emits exactly the privileged-API advisory and no policy advisory. -/
theorem isolation_advisory_subsumption :
    (∀ c : CapabilityConfiguration,
        c.privilegedAPI = true → c.contentIsolationDisabled = true →
        AdvisoryKind.DisabledContentIsolation ∉ ConfigurationClassifier.classify c ∧
        AdvisoryKind.PrivilegedAPIWithoutIsolation ∈ ConfigurationClassifier.classify c) ∧
    (outKinds ((Session.create cfgNI).run
        [Event.navigate (some urlRemote) [headerScriptSrcSelf]])
      = [AdvisoryKind.PrivilegedAPIWithoutIsolation]) := by
  constructor
  · intro c h1 h2
    exact ⟨classify_no_dci c h1 h2, classify_pawi_mem c h1 h2⟩
  · decide

/-- Witness for C7: the subsumption clause evaluated at the concrete
nodeIntegration configuration. -/
theorem isolation_advisory_subsumption_witness :
    (cfgNI.privilegedAPI = true ∧ cfgNI.contentIsolationDisabled = true) ∧
    (AdvisoryKind.DisabledContentIsolation ∉ ConfigurationClassifier.classify cfgNI ∧
      AdvisoryKind.PrivilegedAPIWithoutIsolation ∈ ConfigurationClassifier.classify cfgNI) :=
  ⟨⟨by decide, by decide⟩,
    isolation_advisory_subsumption.1 cfgNI (by decide) (by decide)⟩

/-- Claim C8: the rendered message of each advisory kind carries the literal
identifier of its hazard (allowRunningInsecureContent, enableBlinkFeatures,
Disabled webSecurity), and wording is stable across emissions: every emitted
advisory carries exactly the catalog message of its kind. -/
theorem advisory_message_wording_contract :
    (containsSubstr (renderMessage AdvisoryKind.InsecureContentAllowed)
        ("allowRunningInsecureContent") = true) ∧
    (containsSubstr (renderMessage AdvisoryKind.CustomEngineFeatureEnabled)
        ("enableBlinkFeatures") = true) ∧
    (containsSubstr (renderMessage AdvisoryKind.DisabledTransportSecurity)
        ("Disabled webSecurity") = true) ∧
    (∀ (s : Session) (e : Event) (a : Advisory), a ∈ (s.step e).2 →
        a.message = renderMessage a.kind) := by
  refine ⟨by decide, by decide, by decide, ?_⟩
  intro s e a h
  exact (step_out s e a h).2.1

/-- Witness for C8: the stability clause evaluated on a concrete emission. -/
theorem advisory_message_wording_contract_witness :
    ({ kind := AdvisoryKind.PrivilegedAPIWithoutIsolation,
       message := renderMessage AdvisoryKind.PrivilegedAPIWithoutIsolation } : Advisory)
        ∈ ((Session.create cfgNI).step (Event.navigate (some urlRemote) [])).2 ∧
    renderMessage AdvisoryKind.PrivilegedAPIWithoutIsolation
        = renderMessage AdvisoryKind.PrivilegedAPIWithoutIsolation :=
  ⟨by decide,
    advisory_message_wording_contract.2.2.2 (Session.create cfgNI)
      (Event.navigate (some urlRemote) [])
      { kind := AdvisoryKind.PrivilegedAPIWithoutIsolation,
        message := renderMessage AdvisoryKind.PrivilegedAPIWithoutIsolation }
      (by decide)⟩

/-- Claim C9: advisory emission is independent of the sandbox flag: for every
configuration and event trace, the sequence of emitted advisories is the same
whether the session is created with sandbox enabled or disabled. -/
theorem sandbox_state_no_effect (c : CapabilityConfiguration) (b1 b2 : Bool)
    (tr : List Event) :
    ((Session.create { c with sandbox := b1 }).run tr).2 =
      ((Session.create { c with sandbox := b2 }).run tr).2 := by
  have h1 := run_scrub_out tr (Session.create { c with sandbox := b1 })
  have h2 := run_scrub_out tr (Session.create { c with sandbox := b2 })
  have e12 : scrubSession (Session.create { c with sandbox := b1 })
      = scrubSession (Session.create { c with sandbox := b2 }) := rfl
  rw [← h1, ← h2, e12]

/-- Claim C10: every advisory message carries the common marker substring that
the test predicate messageContainsSecurityWarning looks for, both in the
catalog and in every actual emission. -/
theorem diagnostic_marker_in_every_advisory :
    (∀ k : AdvisoryKind, messageContainsSecurityWarning (renderMessage k) = true) ∧
    (∀ (s : Session) (e : Event) (a : Advisory), a ∈ (s.step e).2 →
        messageContainsSecurityWarning a.message = true) := by
  have hk : ∀ k : AdvisoryKind, messageContainsSecurityWarning (renderMessage k) = true := by
    intro k
    cases k <;> decide
  refine ⟨hk, ?_⟩
  intro s e a h
  rw [(step_out s e a h).2.1]
  exact hk a.kind

/-- Witness for C10: a concrete emission carries the marker. -/
theorem diagnostic_marker_in_every_advisory_witness :
    ({ kind := AdvisoryKind.InsecurePolicy,
       message := renderMessage AdvisoryKind.InsecurePolicy } : Advisory)
        ∈ ((Session.create cfgNIiso).step (Event.navigate (some urlRemote) [])).2 ∧
    messageContainsSecurityWarning (renderMessage AdvisoryKind.InsecurePolicy) = true :=
  ⟨by decide,
    diagnostic_marker_in_every_advisory.2 (Session.create cfgNIiso)
      (Event.navigate (some urlRemote) [])
      { kind := AdvisoryKind.InsecurePolicy,
        message := renderMessage AdvisoryKind.InsecurePolicy }
      (by decide)⟩

lemma gated_mem_untrusted (c : CapabilityConfiguration) (k : AdvisoryKind)
    (hk : k ∈ ConfigurationClassifier.classify c) :
    k ∈ gatedConfigAdvisories c false := by
  unfold gatedConfigAdvisories
  exact List.mem_filter.mpr ⟨hk, by simp⟩

lemma roc_insecure (d r : Url) (h1 : isPlaintextScheme d.scheme = false)
    (h2 : isLoopbackHost d.host = false) (h3 : isPlaintextScheme r.scheme = true) :
    ResourceOriginClassifier.classify (some d) r = ResourceClass.Insecure := by
  unfold ResourceOriginClassifier.classify
  have ht : isTrusted (some d) = false := h2
  simp [h1, h3, ht]

lemma roc_trusted_ne (d r : Url) (hl : isLoopbackHost d.host = true) :
    ResourceOriginClassifier.classify (some d) r ≠ ResourceClass.Insecure := by
  unfold ResourceOriginClassifier.classify
  have ht : isTrusted (some d) = true := hl
  simp only [ht, Bool.not_true, Bool.and_false, Bool.false_and, Bool.false_eq_true,
    if_false]
  split <;> simp

/-- Counterexample to C2 as stated: with privileged-API access and content
isolation ACTIVE, navigating to a non-trusted origin emits no
PrivilegedAPIWithoutIsolation advisory at all — the combined rule requires
content isolation to be disabled — so "exactly one" fails. -/
theorem nodeIntegration_isolation_active_counterexample :
    cfgNIiso.privilegedAPI = true ∧
    cfgNIiso.contentIsolationDisabled = false ∧
    isTrusted (some urlRemote) = false ∧
    (outKinds ((Session.create cfgNIiso).run
        [Event.navigate (some urlRemote) [headerAdequate]])).count
      AdvisoryKind.PrivilegedAPIWithoutIsolation = 0 := by
  decide

/-- Claim C2 (amended: content isolation disabled, not active): for every
session with privileged-API access and content isolation disabled, the first
navigation to a non-trusted origin emits exactly one
PrivilegedAPIWithoutIsolation advisory; navigating the same configuration to
a trusted (loopback) origin emits none; and an origin is trusted iff its host
is loopback, regardless of port. -/
theorem nodeIntegration_remote_content_advisory :
    (∀ (c : CapabilityConfiguration) (u : Url) (hdrs : List String),
        c.privilegedAPI = true → c.contentIsolationDisabled = true →
        isLoopbackHost u.host = false →
        (outKinds ((Session.create c).run [Event.navigate (some u) hdrs])).count
            AdvisoryKind.PrivilegedAPIWithoutIsolation = 1) ∧
    (∀ (c : CapabilityConfiguration) (u : Url) (hdrs : List String),
        isLoopbackHost u.host = true →
        AdvisoryKind.PrivilegedAPIWithoutIsolation ∉
          outKinds ((Session.create c).run [Event.navigate (some u) hdrs])) ∧
    (∀ u : Url, isTrusted (some u) = isLoopbackHost u.host) ∧
    (∀ (u : Url) (p p2 : Nat),
        isTrusted (some { u with port := p }) = isTrusted (some { u with port := p2 })) := by
  refine ⟨?_, ?_, fun u => rfl, fun u p p2 => rfl⟩
  · intro c u hdrs h1 h2 h3
    unfold outKinds
    rw [run_single, create_step_nav]
    have ht : isTrusted (some u) = false := h3
    rw [ht]
    apply List.count_eq_one_of_mem
    · exact emitAll_nodup _ _
    · exact emitAll_emits _ _ _
        (List.mem_append_left _
          (gated_mem_untrusted c _ (classify_pawi_mem c h1 h2)))
        (by simp)
  · intro c u hdrs hl hmem
    unfold outKinds at hmem
    rw [run_single, create_step_nav] at hmem
    rcases List.mem_map.mp hmem with ⟨a, ha, hak⟩
    rcases emitAll_out _ _ a ha with ⟨hks, _, _, _⟩
    rw [hak] at hks
    have ht : isTrusted (some u) = true := hl
    rw [ht] at hks
    rcases List.mem_append.mp hks with hcfg | hcsp
    · unfold gatedConfigAdvisories at hcfg
      have := (List.mem_filter.mp hcfg).2
      simp [trustGated] at this
    · rw [cspAdvisory_trusted] at hcsp
      cases hcsp

/-- Witness for C2 (amended): the nodeIntegration configuration navigating to
the remote page emits the privileged-API advisory exactly once. -/
theorem nodeIntegration_remote_content_advisory_witness :
    (cfgNI.privilegedAPI = true ∧ cfgNI.contentIsolationDisabled = true ∧
      isLoopbackHost urlRemote.host = false) ∧
    (outKinds ((Session.create cfgNI).run
        [Event.navigate (some urlRemote) [headerAdequate]])).count
      AdvisoryKind.PrivilegedAPIWithoutIsolation = 1 :=
  ⟨⟨by decide, by decide, by decide⟩,
    nodeIntegration_remote_content_advisory.1 cfgNI urlRemote [headerAdequate]
      (by decide) (by decide) (by decide)⟩

/-- Claim C3: the CSP analyzer maps the empty header sequence to Absent, is
Adequate exactly when some present directive restricts script sources, maps
the trusted-types-only header of the test suite to
WeakOrMissingScriptRestriction, and both non-Adequate outcomes trigger the
same InsecurePolicy advisory kind. -/
theorem csp_analyzer_classification :
    (CSPAnalyzer.classify [] = CSPClass.Absent) ∧
    (∀ hs : List String, CSPAnalyzer.classify hs = CSPClass.Adequate ↔
        ∃ h ∈ hs, ∃ d ∈ policyDirectives h, directiveRestrictsScript d = true) ∧
    (∀ hs : List String, hs ≠ [] →
        (∀ h ∈ hs, ∀ d ∈ policyDirectives h, directiveRestrictsScript d = false) →
        CSPAnalyzer.classify hs = CSPClass.WeakOrMissingScriptRestriction) ∧
    (CSPAnalyzer.classify [headerTrustedTypes] = CSPClass.WeakOrMissingScriptRestriction) ∧
    (∀ hs : List String, CSPAnalyzer.classify hs ≠ CSPClass.Adequate →
        cspAdvisory false hs = [AdvisoryKind.InsecurePolicy]) :=
  ⟨rfl, classify_adequate_iff, classify_weak_of, by decide, cspAdvisory_nonadequate⟩

/-- Witness for C3: the absent-policy case feeds the same advisory kind. -/
theorem csp_analyzer_classification_witness :
    (CSPAnalyzer.classify [] ≠ CSPClass.Adequate) ∧
    cspAdvisory false [] = [AdvisoryKind.InsecurePolicy] :=
  ⟨by decide, csp_analyzer_classification.2.2.2.2 [] (by decide)⟩

/-- Claim C4: a plaintext sub-resource of an encrypted, non-trusted document
classifies Insecure and the emitter raises the insecure-resource advisory,
while a trusted (loopback) document origin never classifies a resource as
Insecure and its resource loads emit nothing. -/
theorem insecure_resource_classification :
    (∀ d r : Url, isPlaintextScheme d.scheme = false → isLoopbackHost d.host = false →
        isPlaintextScheme r.scheme = true →
        ResourceOriginClassifier.classify (some d) r = ResourceClass.Insecure) ∧
    (∀ (s : Session) (d r : Url), s.phase = Phase.Active → s.currentOrigin = some d →
        isPlaintextScheme d.scheme = false → isLoopbackHost d.host = false →
        isPlaintextScheme r.scheme = true →
        AdvisoryKind.InsecureResources ∉ s.emitted →
        AdvisoryKind.InsecureResources ∈
          (s.step (Event.resourceLoad r)).2.map Advisory.kind) ∧
    (∀ d r : Url, isLoopbackHost d.host = true →
        ResourceOriginClassifier.classify (some d) r ≠ ResourceClass.Insecure) ∧
    (∀ (s : Session) (d r : Url), s.currentOrigin = some d →
        isLoopbackHost d.host = true →
        (s.step (Event.resourceLoad r)).2 = []) := by
  refine ⟨roc_insecure, ?_, roc_trusted_ne, ?_⟩
  · intro s d r hph horg h1 h2 h3 hem
    obtain ⟨cfg, em, org, ph⟩ := s
    have hph2 : ph = Phase.Active := hph
    have horg2 : org = some d := horg
    subst hph2
    subst horg2
    have hcl := roc_insecure d r h1 h2 h3
    have hstep : (Session.step
          { config := cfg, emitted := em, currentOrigin := some d, phase := Phase.Active }
          (Event.resourceLoad r))
        = Session.emitAll
            { config := cfg, emitted := em, currentOrigin := some d, phase := Phase.Active }
            [AdvisoryKind.InsecureResources] := by
      simp only [Session.step, hcl]
    rw [hstep]
    exact emitAll_emits _ _ _ (List.mem_singleton.mpr rfl) hem
  · intro s d r horg hl
    obtain ⟨cfg, em, org, ph⟩ := s
    have horg2 : org = some d := horg
    subst horg2
    cases ph with
    | Closed => rfl
    | FirstNavigationPending => rfl
    | Active =>
        have hne := roc_trusted_ne d r hl
        cases hcl : ResourceOriginClassifier.classify (some d) r with
        | Insecure => exact absurd hcl hne
        | SameOrigin => simp [Session.step, hcl]
        | SecureCrossOrigin => simp [Session.step, hcl]

/-- Witness for C4: the encrypted remote document with a plaintext image
resource does emit the insecure-resource advisory. -/
theorem insecure_resource_classification_witness :
    (sessionDocTLS.phase = Phase.Active ∧ sessionDocTLS.currentOrigin = some urlDocTLS ∧
      isPlaintextScheme urlDocTLS.scheme = false ∧ isLoopbackHost urlDocTLS.host = false ∧
      isPlaintextScheme resImg.scheme = true ∧
      AdvisoryKind.InsecureResources ∉ sessionDocTLS.emitted) ∧
    AdvisoryKind.InsecureResources ∈
      (sessionDocTLS.step (Event.resourceLoad resImg)).2.map Advisory.kind :=
  ⟨⟨rfl, rfl, by decide, by decide, by decide, by decide⟩,
    insecure_resource_classification.2.1 sessionDocTLS urlDocTLS resImg rfl rfl
      (by decide) (by decide) (by decide) (by decide)⟩

/-- Claim C5: the configuration-only advisories (experimental features, custom
engine feature string, popups from hosted frames) are emitted on first
navigation whenever their flag is set, for every content origin — trusted or
not — so trusted-origin exemption never suppresses them. -/
theorem config_only_advisories_unsuppressed :
    ∀ (c : CapabilityConfiguration) (u : Option Url) (hdrs : List String),
      (c.experimentalFeatures = true →
        AdvisoryKind.ExperimentalFeaturesEnabled ∈
          outKinds ((Session.create c).run [Event.navigate u hdrs])) ∧
      (c.customFeatureString.data.isEmpty = false →
        AdvisoryKind.CustomEngineFeatureEnabled ∈
          outKinds ((Session.create c).run [Event.navigate u hdrs])) ∧
      (c.popupsAllowed = true →
        AdvisoryKind.PopupsFromHostedFramesAllowed ∈
          outKinds ((Session.create c).run [Event.navigate u hdrs])) := by
  intro c u hdrs
  have base : ∀ k : AdvisoryKind, trustGated k = false →
      k ∈ ConfigurationClassifier.classify c →
      k ∈ outKinds ((Session.create c).run [Event.navigate u hdrs]) := by
    intro k hg hk
    unfold outKinds
    rw [run_single, create_step_nav]
    exact emitAll_emits _ _ _
      (List.mem_append_left _ (gated_mem_of c _ k hk hg)) (by simp)
  exact ⟨fun h => base _ rfl (classify_exp_mem c h),
    fun h => base _ rfl (classify_custom_mem c h),
    fun h => base _ rfl (classify_popups_mem c h)⟩

/-- Witness for C5: with every local hazard flag set, the experimental
features advisory fires even though the committed origin is loopback. -/
theorem config_only_advisories_unsuppressed_witness :
    (cfgLocalHazards.experimentalFeatures = true) ∧
    AdvisoryKind.ExperimentalFeaturesEnabled ∈
      outKinds ((Session.create cfgLocalHazards).run
        [Event.navigate (some urlLocal) [headerAdequate]]) :=
  ⟨by decide,
    (config_only_advisories_unsuppressed cfgLocalHazards (some urlLocal)
      [headerAdequate]).1 (by decide)⟩
